import Mathlib

set_option maxHeartbeats 1000000

namespace OpenSSLBio

/-- SSLRecordSize constant from bio.go line 31: 16 * 1024 bytes. -/
def SSLRecordSize : Nat := 16 * 1024

/-- Errors a Go net.Conn read or write can report: io.EOF (the clean
end-of-stream sentinel) or any other error. -/
inductive ConnErr
  | eof
  | other
deriving DecidableEq

/-- State of a writeBio (bio.go lines 49-55): the FIFO byte buffer and the
release_buffers hint. The two mutexes and the net.Conn reference are modelled
by sequential state passing and by parameters of the operations; bytes are Nat. -/
structure WriteBio where
  buf : List Nat
  release_buffers : Bool
deriving DecidableEq

/-- go_write_bio_write (bio.go lines 71-87). ptr is the adapter looked up from
the BIO (none when missing), data is the memory behind the C pointer (none for a
null pointer), size the requested length. nonCopyCString reads exactly size
bytes at data, which are appended to the buffer. Returns the C return code and
the updated adapter. -/
def go_write_bio_write (ptr : Option WriteBio) (data : Option (List Nat))
    (size : Int) : Int × Option WriteBio :=
  match ptr, data with
  | none, _ => (-1, none)
  | some wb, none => (-1, some wb)
  | some wb, some d =>
    if size < 0 then (-1, some wb)
    else (size, some ⟨wb.buf ++ d.take size.toNat, wb.release_buffers⟩)

/-- writeBioPending (bio.go lines 110-118): buffered byte count, 0 when the
adapter is missing. -/
def writeBioPending (ptr : Option WriteBio) : Int :=
  match ptr with
  | none => 0
  | some wb => (wb.buf.length : Int)

/-- Result of writeBio.WriteToConn: the return value n, the error conn.Write
reported, the updated adapter, and the bytes actually handed to the connection. -/
structure FlushRes where
  n : Int
  err : Option ConnErr
  wb : WriteBio
  sent : List Nat
deriving DecidableEq

/-- writeBio.WriteToConn (bio.go lines 132-155). The connection is modelled by
accept (how many bytes conn.Write accepts on this call; a short write when less
than the buffered amount) and e (the error it reports). On an empty buffer
conn.Write is not called and (0, nil) is returned. Otherwise conn.Write(data)
hands the first n = min accept (length buf) bytes of the buffer to the
connection and the buffer is compacted to its unwritten suffix buf[n:]. -/
def WriteToConn (wb : WriteBio) (accept : Nat) (e : Option ConnErr) : FlushRes :=
  if wb.buf.length = 0 then ⟨0, none, wb, []⟩
  else
    let n := min accept wb.buf.length
    ⟨(n : Int), e, ⟨wb.buf.drop n, wb.release_buffers⟩, wb.buf.take n⟩

/-- writeBioFlush (bio.go lines 120-130): 0 for a missing adapter or a
connection error, otherwise the number of bytes written. -/
def writeBioFlush (ptr : Option WriteBio) (accept : Nat) (e : Option ConnErr) :
    Int × Option WriteBio :=
  match ptr with
  | none => (0, none)
  | some wb =>
    let r := WriteToConn wb accept e
    match r.err with
    | some _ => (0, some r.wb)
    | none => (r.n, some r.wb)

/-- The BIO_CTRL commands dispatched by the two ctrl callbacks in bio.go. -/
inductive BioCmd
  | ctrlPending
  | ctrlWPending
  | ctrlFlush
  | ctrlDup
  | ctrlOther
deriving DecidableEq

/-- go_write_bio_ctrl (bio.go lines 90-108), the cmd dispatch of its body. -/
def go_write_bio_ctrl (ptr : Option WriteBio) (cmd : BioCmd) (accept : Nat)
    (e : Option ConnErr) : Int × Option WriteBio :=
  match cmd with
  | .ctrlWPending => (writeBioPending ptr, ptr)
  | .ctrlFlush => writeBioFlush ptr accept e
  | .ctrlDup => (1, ptr)
  | _ => (0, ptr)

/-- State of a readBio (bio.go lines 173-180): the FIFO buffer together with the
capacity of its backing storage, the sticky eof flag, and the release_buffers
hint. -/
structure ReadBio where
  buf : List Nat
  bufCap : Nat
  eof : Bool
  release_buffers : Bool
deriving DecidableEq

/-- Result of go_read_bio_read: the C return code, the bytes copied into the
destination, the updated adapter (none when missing), and the BIO retry-read
flag after the call. -/
structure ReadRet where
  rc : Int
  copied : List Nat
  ptr : Option ReadBio
  retry : Bool
deriving DecidableEq

/-- go_read_bio_read (bio.go lines 187-217). dataNull models a null destination
pointer, size the destination capacity, retryIn the BIO retry-read flag before
the call (left untouched by the early -1 return, cleared by bioClearRetryFlags
otherwise, and set again only on the would-block branch). A non-empty buffer is
served FIFO: n = min size (length buf) bytes are copied out and the buffer is
compacted to buf[n:]; with release_buffers the emptied buffer drops its backing
storage (capacity 0). -/
def go_read_bio_read (ptr : Option ReadBio) (dataNull : Bool) (size : Int)
    (retryIn : Bool) : ReadRet :=
  match ptr with
  | none => ⟨-1, [], none, retryIn⟩
  | some rb =>
    if size < 0 then ⟨-1, [], some rb, retryIn⟩
    else if rb.buf.length = 0 then
      if rb.eof then ⟨0, [], some rb, false⟩
      else ⟨-1, [], some rb, true⟩
    else if size = 0 ∨ dataNull = true then ⟨(rb.buf.length : Int), [], some rb, false⟩
    else
      let n := min size.toNat rb.buf.length
      ⟨(n : Int), rb.buf.take n,
        some ⟨rb.buf.drop n,
          if rb.release_buffers ∧ rb.buf.drop n = [] then 0 else rb.bufCap,
          rb.eof, rb.release_buffers⟩,
        false⟩

/-- readBioPending (bio.go lines 239-247). -/
def readBioPending (ptr : Option ReadBio) : Int :=
  match ptr with
  | none => 0
  | some rb => (rb.buf.length : Int)

/-- go_read_bio_ctrl (bio.go lines 219-237), the cmd dispatch of its body. -/
def go_read_bio_ctrl (ptr : Option ReadBio) (cmd : BioCmd) : Int :=
  match cmd with
  | .ctrlPending => readBioPending ptr
  | .ctrlDup => 1
  | .ctrlFlush => 1
  | _ => 0

/-- The capacity of the read buffer after the growth step at the top of
readBio.ReadFromConnOnce (bio.go lines 255-259): grown to length buf +
SSLRecordSize when the current backing storage cannot admit a full record behind
the buffered data, kept as is otherwise. -/
def grownCap (rb : ReadBio) : Nat :=
  if rb.bufCap < rb.buf.length + SSLRecordSize then rb.buf.length + SSLRecordSize
  else rb.bufCap

/-- Result of one readBio.ReadFromConnOnce call: the return value n, the error
conn.Read reported, and the updated adapter. -/
structure ConnReadRes where
  n : Int
  err : Option ConnErr
  rb : ReadBio
deriving DecidableEq

/-- One call of readBio.ReadFromConnOnce (bio.go lines 249-276) given the single
conn.Read outcome (chunk, e): grows the tail capacity, reads the chunk into the
tail region dst = buf[len:cap], and extends the buffer length by
n = length chunk exactly when n > 0. The eof flag is not touched. -/
def readFromConnOnceStep (rb : ReadBio) (chunk : List Nat) (e : Option ConnErr) :
    ConnReadRes :=
  let cap2 := grownCap rb
  let n := chunk.length
  let buf2 := if 0 < n then rb.buf ++ chunk else rb.buf
  ⟨(n : Int), e, ⟨buf2, cap2, rb.eof, rb.release_buffers⟩⟩

/-- readBio.ReadFromConnOnce driven against a connection modelled as the list of
outcomes its successive Read calls produce; exactly the first outcome is
consumed per call. -/
def ReadFromConnOnce (rb : ReadBio) (conn : List (List Nat × Option ConnErr)) :
    ConnReadRes × List (List Nat × Option ConnErr) :=
  match conn with
  | [] => (⟨0, none, ⟨rb.buf, grownCap rb, rb.eof, rb.release_buffers⟩⟩, [])
  | (c, e) :: rest => (readFromConnOnceStep rb c e, rest)

/-- readBio.MarkEOF (bio.go lines 292-296). -/
def MarkEOF (rb : ReadBio) : ReadBio :=
  ⟨rb.buf, rb.bufCap, true, rb.release_buffers⟩

/-- anyBio.Read (bio.go lines 302-311). bufLen is the destination length,
foreignRc the X_BIO_read return value; the result is (n, err) in the style of a
Go io.Reader, with err modelled as Option ConnErr (none = nil error,
some ConnErr.eof = io.EOF). -/
def anyBioRead (bufLen : Nat) (foreignRc : Int) : Nat × Option ConnErr :=
  if bufLen = 0 then (0, none)
  else if foreignRc ≤ 0 then (0, some ConnErr.eof)
  else (foreignRc.toNat, none)

/-- An internal fault (a Go panic) raised while a foreign-callable entry point
is executing. -/
inductive GoFault
  | fault (code : Nat)
deriving DecidableEq

/-- The deferred recover block shared by the four exported callbacks in bio.go:
an ordinary return passes through, a fault is caught and converted to the error
code -1. -/
def recoverRC (r : Except GoFault Int) : Int :=
  match r with
  | .ok rc => rc
  | .error _ => -1

/-- go_write_bio_write as entered from C: its body either faults somewhere
during execution (fault = some p) or returns normally; the deferred recover
turns the fault into -1. -/
def go_write_bio_write_entry (fault : Option GoFault) (ptr : Option WriteBio)
    (data : Option (List Nat)) (size : Int) : Int :=
  recoverRC
    (match fault with
     | some p => Except.error p
     | none => Except.ok (go_write_bio_write ptr data size).1)

/-- go_read_bio_read as entered from C, with the same recover wrapping. -/
def go_read_bio_read_entry (fault : Option GoFault) (ptr : Option ReadBio)
    (dataNull : Bool) (size : Int) (retryIn : Bool) : Int :=
  recoverRC
    (match fault with
     | some p => Except.error p
     | none => Except.ok (go_read_bio_read ptr dataNull size retryIn).rc)

/-- go_write_bio_ctrl as entered from C, with the same recover wrapping. -/
def go_write_bio_ctrl_entry (fault : Option GoFault) (ptr : Option WriteBio)
    (cmd : BioCmd) (accept : Nat) (e : Option ConnErr) : Int :=
  recoverRC
    (match fault with
     | some p => Except.error p
     | none => Except.ok (go_write_bio_ctrl ptr cmd accept e).1)

/-- go_read_bio_ctrl as entered from C, with the same recover wrapping. -/
def go_read_bio_ctrl_entry (fault : Option GoFault) (ptr : Option ReadBio)
    (cmd : BioCmd) : Int :=
  recoverRC
    (match fault with
     | some p => Except.error p
     | none => Except.ok (go_read_bio_ctrl ptr cmd))

/-- A sequential history of Write Adapter operations: append d is
go_write_bio_write on a live adapter with a valid pointer and size = length d;
flush accept is WriteToConn with the connection accepting accept bytes on that
call. -/
inductive WOp
  | append (d : List Nat)
  | flush (accept : Nat)

/-- Trace state for the Write Adapter: the adapter plus the concatenation of all
bytes handed to the connection so far and of all bytes appended so far. -/
structure WTrace where
  wb : WriteBio
  written : List Nat
  appended : List Nat

def wStep (s : WTrace) : WOp → WTrace
  | .append d =>
    match (go_write_bio_write (some s.wb) (some d) (d.length : Int)).2 with
    | some wb2 => ⟨wb2, s.written, s.appended ++ d⟩
    | none => s
  | .flush k =>
    let r := WriteToConn s.wb k none
    ⟨r.wb, s.written ++ r.sent, s.appended⟩

/-- Running a history of Write Adapter operations from a fresh adapter. -/
def wRun (ops : List WOp) : WTrace :=
  ops.foldl wStep ⟨⟨[], false⟩, [], []⟩

/-- A sequential history of Read Adapter operations: deliver chunk e is one
ReadFromConnOnce whose conn.Read returns (chunk, e); drain dataNull size is one
go_read_bio_read on the live adapter. -/
inductive ROp
  | deliver (chunk : List Nat) (e : Option ConnErr)
  | drain (dataNull : Bool) (size : Int)

/-- Trace state for the Read Adapter: the adapter plus the concatenation of all
bytes drained so far and of all bytes delivered by the connection so far. -/
structure RTrace where
  rb : ReadBio
  drained : List Nat
  delivered : List Nat

def rStep (s : RTrace) : ROp → RTrace
  | .deliver c e => ⟨(readFromConnOnceStep s.rb c e).rb, s.drained, s.delivered ++ c⟩
  | .drain dn sz =>
    match (go_read_bio_read (some s.rb) dn sz false).ptr with
    | some rb2 => ⟨rb2, s.drained ++ (go_read_bio_read (some s.rb) dn sz false).copied,
        s.delivered⟩
    | none => s

/-- Running a history of Read Adapter operations from a fresh adapter. -/
def rRun (ops : List ROp) : RTrace :=
  ops.foldl rStep ⟨⟨[], 0, false, false⟩, [], []⟩

/-- The operations of a Read Adapter considered for the sticky-eof invariant:
a foreign read request, the pending query, one ReadFromConnOnce, and MarkEOF. -/
inductive ReadOp
  | readReq (dataNull : Bool) (size : Int) (retryIn : Bool)
  | pendingQ
  | connOnce (chunk : List Nat) (e : Option ConnErr)
  | markEOF

def readOpStep (rb : ReadBio) : ReadOp → ReadBio
  | .readReq dn sz ri =>
    match (go_read_bio_read (some rb) dn sz ri).ptr with
    | some rb2 => rb2
    | none => rb
  | .pendingQ => rb
  | .connOnce c e => (readFromConnOnceStep rb c e).rb
  | .markEOF => MarkEOF rb

def isMarkEOF : ReadOp → Bool
  | .markEOF => true
  | _ => false

/-- The bytes of the message the server writes in the repository's
client/server test: the ASCII codes of the 20 characters of the string
given there. -/
def serverTestMessage : List Nat :=
  [115, 101, 114, 118, 101, 114, 32, 116, 101, 115, 116, 32,
   109, 101, 115, 115, 97, 103, 101, 10]

/-- The Write Adapter state right after Append of serverTestMessage. -/
def c8wb1 : WriteBio := ⟨serverTestMessage, false⟩

/-- First Flush against a connection accepting exactly 5 bytes per call. -/
def c8f1 : FlushRes := WriteToConn c8wb1 5 none

/-- Second Flush. -/
def c8f2 : FlushRes := WriteToConn c8f1.wb 5 none

/-- Third Flush. -/
def c8f3 : FlushRes := WriteToConn c8f2.wb 5 none

/-- Fourth Flush. -/
def c8f4 : FlushRes := WriteToConn c8f3.wb 5 none

/-- Fifth Flush. -/
def c8f5 : FlushRes := WriteToConn c8f4.wb 5 none

theorem read_copied_decomp (rb : ReadBio) (dn : Bool) (sz : Int) (ri : Bool) :
    ∃ rb2, (go_read_bio_read (some rb) dn sz ri).ptr = some rb2 ∧
      (go_read_bio_read (some rb) dn sz ri).copied ++ rb2.buf = rb.buf ∧
      rb2.eof = rb.eof := by
  unfold go_read_bio_read
  by_cases h1 : sz < 0
  · exact ⟨rb, by simp [h1], by simp [h1], rfl⟩
  by_cases h2 : rb.buf.length = 0
  · by_cases h3 : rb.eof
    · exact ⟨rb, by simp [h1, h2, h3], by simp [h1, h2, h3], rfl⟩
    · exact ⟨rb, by simp [h1, h2, h3], by simp [h1, h2, h3], rfl⟩
  by_cases h4 : sz = 0 ∨ dn = true
  · exact ⟨rb, by simp [h1, h2, h4], by simp [h1, h2, h4], rfl⟩
  · refine ⟨⟨rb.buf.drop (min sz.toNat rb.buf.length),
      if rb.release_buffers ∧ rb.buf.drop (min sz.toNat rb.buf.length) = [] then 0
      else rb.bufCap, rb.eof, rb.release_buffers⟩,
      by simp [h1, h2, h4], ?_, rfl⟩
    simp only [h1, h2, h4, if_neg, if_false]
    simp [List.take_append_drop]

/-- C7: over every Read Adapter operation (foreign read request, pending query,
ReadFromConnOnce, MarkEOF), the eof flag after the operation equals eof before
or-ed with whether the operation is MarkEOF; hence eof never reverts from true
to false and transitions false to true at most once, exactly when MarkEOF first
runs. -/
theorem c7_eof_monotone :
    ∀ (rb : ReadBio) (op : ReadOp),
      (readOpStep rb op).eof = (rb.eof || isMarkEOF op) := by
  intro rb op
  cases op with
  | readReq dn sz ri =>
    obtain ⟨rb2, hptr, _, heof⟩ := read_copied_decomp rb dn sz ri
    simp [readOpStep, isMarkEOF, hptr, heof]
  | pendingQ => simp [readOpStep, isMarkEOF]
  | connOnce c e => simp [readOpStep, isMarkEOF, readFromConnOnceStep]
  | markEOF => simp [readOpStep, isMarkEOF, MarkEOF]

/-- C9: every foreign-callable entry point (go_write_bio_write,
go_read_bio_read, go_write_bio_ctrl, go_read_bio_ctrl) converts any internal
fault raised during its execution into the return code -1, and runs its normal
body when no fault occurs. -/
theorem c9_entry_points_recover :
    ∀ (p : GoFault) (ptr : Option WriteBio) (data : Option (List Nat)) (size : Int)
      (rp : Option ReadBio) (dn : Bool) (rsize : Int) (ri : Bool)
      (cmd : BioCmd) (accept : Nat) (e : Option ConnErr),
      go_write_bio_write_entry (some p) ptr data size = -1 ∧
      go_read_bio_read_entry (some p) rp dn rsize ri = -1 ∧
      go_write_bio_ctrl_entry (some p) ptr cmd accept e = -1 ∧
      go_read_bio_ctrl_entry (some p) rp cmd = -1 ∧
      go_write_bio_write_entry none ptr data size = (go_write_bio_write ptr data size).1 ∧
      go_read_bio_read_entry none rp dn rsize ri = (go_read_bio_read rp dn rsize ri).rc ∧
      go_write_bio_ctrl_entry none ptr cmd accept e = (go_write_bio_ctrl ptr cmd accept e).1 ∧
      go_read_bio_ctrl_entry none rp cmd = go_read_bio_ctrl rp cmd := by
  intro p ptr data size rp dn rsize ri cmd accept e
  exact ⟨rfl, rfl, rfl, rfl, rfl, rfl, rfl, rfl⟩

/-- C6 counterexample: with a 1-byte destination and the foreign call returning
the non-positive result 0, anyBio.Read returns (0, io.EOF); io.EOF is a non-nil
error value, so the call does not return "no error" as the claim states. -/
theorem c6_eof_not_nil_counterexample :
    anyBioRead 1 0 = (0, some ConnErr.eof) ∧
    (some ConnErr.eof ≠ (none : Option ConnErr)) := by
  exact ⟨rfl, by simp⟩

/-- C6 amended: whenever the destination is non-empty and the underlying
foreign call returns a non-positive result, anyBio.Read treats it as
end-of-stream by returning 0 bytes together with the conventional clean
end-of-stream sentinel io.EOF (a non-nil error value). -/
theorem c6_any_bio_read_amended :
    ∀ (bufLen : Nat) (rc : Int), 0 < bufLen → rc ≤ 0 →
      anyBioRead bufLen rc = (0, some ConnErr.eof) := by
  intro bufLen rc h1 h2
  unfold anyBioRead
  rw [if_neg (by omega), if_pos h2]

/-- C6 witness: the amended theorem applied at the concrete input of the
counterexample. -/
theorem c6_any_bio_read_amended_witness :
    anyBioRead 1 0 = (0, some ConnErr.eof) :=
  c6_any_bio_read_amended 1 0 (by decide) (by decide)

/-- C10 counterexample: with a non-empty buffer, a null destination pointer and
the negative size -1, go_read_bio_read returns -1, not the buffered byte
count 1 that the claim predicts for every call with a null destination. -/
theorem c10_negative_size_counterexample :
    (go_read_bio_read (some ⟨[7], 1, false, false⟩) true (-1) false).rc = -1 ∧
    ((-1 : Int) ≠ (1 : Int)) := by
  exact ⟨rfl, by decide⟩

/-- C10 amended: when the buffer is non-empty and the foreign read call passes
a null destination pointer with a non-negative size, or a zero size, the call
returns the current buffered byte count, copies nothing, and leaves the adapter
(buffer included) completely unchanged. -/
theorem c10_peek_amended :
    ∀ (rb : ReadBio) (dn : Bool) (size : Int) (ri : Bool),
      rb.buf ≠ [] → 0 ≤ size → (dn = true ∨ size = 0) →
      (go_read_bio_read (some rb) dn size ri).rc = (rb.buf.length : Int) ∧
      (go_read_bio_read (some rb) dn size ri).ptr = some rb ∧
      (go_read_bio_read (some rb) dn size ri).copied = [] := by
  intro rb dn size ri hne hsz hcase
  have hlen : ¬(rb.buf.length = 0) := by
    simpa [List.length_eq_zero] using hne
  have hcond : size = 0 ∨ dn = true := hcase.symm
  simp only [go_read_bio_read]
  rw [if_neg (by omega : ¬size < 0), if_neg hlen, if_pos hcond]
  exact ⟨rfl, rfl, rfl⟩

/-- C10 witness: the amended theorem applied at a buffer holding one byte, a
null destination and size 3. -/
theorem c10_peek_amended_witness :
    (go_read_bio_read (some ⟨[7], 1, false, false⟩) true 3 false).rc = 1 := by
  have h := (c10_peek_amended ⟨[7], 1, false, false⟩ true 3 false (by decide) (by decide)
      (Or.inl rfl)).1
  exact h.trans (by decide)

/-- C5 counterexample: with a live adapter, a null source pointer and the
requested length 0 (which is neither negative nor a nonzero length), the claim
predicts success, yet go_write_bio_write returns the hard failure code -1. -/
theorem c5_null_zero_size_counterexample :
    (go_write_bio_write (some ⟨[], false⟩) none 0).1 = -1 ∧
    ¬((0 : Int) < 0) ∧ ((-1 : Int) ≠ 0) := by
  exact ⟨rfl, by decide, by decide⟩

/-- C5 amended: go_write_bio_write returns the hard failure code -1 exactly
when the adapter is missing, the source pointer is null (regardless of the
length), or the requested length is negative; in every other case it appends
the size bytes behind the source pointer to the buffer and returns size. -/
theorem c5_append_amended :
    ∀ (ptr : Option WriteBio) (data : Option (List Nat)) (size : Int),
      ((go_write_bio_write ptr data size).1 = -1 ↔
        (ptr = none ∨ data = none ∨ size < 0)) ∧
      (∀ (wb : WriteBio) (d : List Nat), ptr = some wb → data = some d → 0 ≤ size →
        go_write_bio_write ptr data size =
          (size, some ⟨wb.buf ++ d.take size.toNat, wb.release_buffers⟩)) := by
  intro ptr data size
  constructor
  · match ptr, data with
    | none, _ => simp [go_write_bio_write]
    | some wb, none => simp [go_write_bio_write]
    | some wb, some d =>
      by_cases hs : size < 0
      · simp [go_write_bio_write, hs]
      · simp only [go_write_bio_write, if_neg hs]
        constructor
        · intro h
          exact absurd h.symm (by omega)
        · intro h
          rcases h with h | h | h <;> simp_all
  · intro wb d hp hd hs
    subst hp
    subst hd
    simp [go_write_bio_write, not_lt.mpr hs]

/-- C5 witness: the amended theorem applied at a live adapter holding one byte,
a two-byte source and size 2. -/
theorem c5_append_amended_witness :
    go_write_bio_write (some ⟨[1], false⟩) (some [2, 3]) 2 =
      (2, some ⟨[1, 2, 3], false⟩) := by
  have h := (c5_append_amended (some ⟨[1], false⟩) (some [2, 3]) 2).2 ⟨[1], false⟩ [2, 3]
      rfl rfl (by decide)
  exact h.trans (by decide)

/-- C4 counterexample: when the connection signals a clean end-of-stream (the
read returns 0 bytes with io.EOF), ReadFromConnOnce leaves the adapter's eof
flag unset; the eof flag is only ever set separately through MarkEOF by the
connection owner. -/
theorem c4_eof_unset_counterexample :
    (ReadFromConnOnce ⟨[], 0, false, false⟩ [([], some ConnErr.eof)]).1.err =
      some ConnErr.eof ∧
    (ReadFromConnOnce ⟨[], 0, false, false⟩ [([], some ConnErr.eof)]).1.rb.eof = false := by
  exact ⟨rfl, rfl⟩

/-- C4 amended: ReadFromConnOnce performs exactly one read from the connection
per call; before that read it grows the buffer capacity so the tail can admit a
full protocol record of SSLRecordSize bytes, and no reallocation happens during
the read; a read returning n bytes extends the buffer by exactly those n bytes;
the connection error is propagated unchanged; and the eof flag is never mutated
(neither on error nor on a clean end-of-stream, which the connection owner
handles via MarkEOF). -/
theorem c4_read_from_conn_once_amended :
    ∀ (rb : ReadBio) (c : List Nat) (e : Option ConnErr)
      (rest : List (List Nat × Option ConnErr)),
      (ReadFromConnOnce rb ((c, e) :: rest)).2 = rest ∧
      rb.buf.length + SSLRecordSize ≤ grownCap rb ∧
      (ReadFromConnOnce rb ((c, e) :: rest)).1.rb.bufCap = grownCap rb ∧
      (ReadFromConnOnce rb ((c, e) :: rest)).1.rb.buf = rb.buf ++ c ∧
      (ReadFromConnOnce rb ((c, e) :: rest)).1.n = (c.length : Int) ∧
      (ReadFromConnOnce rb ((c, e) :: rest)).1.err = e ∧
      (ReadFromConnOnce rb ((c, e) :: rest)).1.rb.eof = rb.eof := by
  intro rb c e rest
  refine ⟨rfl, ?_, rfl, ?_, rfl, rfl, rfl⟩
  · unfold grownCap
    split
    · omega
    · omega
  · show (readFromConnOnceStep rb c e).rb.buf = rb.buf ++ c
    cases c with
    | nil => simp [readFromConnOnceStep]
    | cons x t => simp [readFromConnOnceStep]

/-- C8 counterexample: the message of the repository's test is 20 bytes long,
not 21; appending it and flushing against a connection that accepts exactly 5
bytes per call fully drains the buffer after 4 Flush calls (the fourth writes 5
bytes, not 1), Pending is already 0 after the fourth call, and a fifth Flush
writes 0 bytes. -/
theorem c8_twenty_bytes_counterexample :
    serverTestMessage.length = 20 ∧ serverTestMessage.length ≠ 21 ∧
    go_write_bio_write (some ⟨[], false⟩) (some serverTestMessage) 20 =
      (20, some c8wb1) ∧
    writeBioPending (some c8f4.wb) = 0 ∧ c8f4.n = 5 ∧ (c8f4.n ≠ 1) ∧ c8f5.n = 0 := by
  decide

/-- C8 amended: appending the 20-byte message of the repository's test into a
Write Adapter whose connection accepts exactly 5 bytes per write call requires
exactly 4 Flush calls to fully drain the buffer (four writes of 5 bytes each),
with Pending decreasing by exactly the bytes written after each Flush
(20, 15, 10, 5, 0) and equal to 0 after the last. -/
theorem c8_drain_scenario_amended :
    serverTestMessage.length = 20 ∧
    go_write_bio_write (some ⟨[], false⟩) (some serverTestMessage) 20 =
      (20, some c8wb1) ∧
    writeBioPending (some c8wb1) = 20 ∧
    c8f1.n = 5 ∧ writeBioPending (some c8f1.wb) = 15 ∧
    c8f2.n = 5 ∧ writeBioPending (some c8f2.wb) = 10 ∧
    c8f3.n = 5 ∧ writeBioPending (some c8f3.wb) = 5 ∧
    c8f4.n = 5 ∧ writeBioPending (some c8f4.wb) = 0 := by
  decide

theorem readFromConnOnceStep_buf (rb : ReadBio) (c : List Nat) (e : Option ConnErr) :
    (readFromConnOnceStep rb c e).rb.buf = rb.buf ++ c := by
  cases c with
  | nil => simp [readFromConnOnceStep]
  | cons x t => simp [readFromConnOnceStep]

theorem wStep_preserves (s : WTrace) (op : WOp)
    (h : s.written ++ s.wb.buf = s.appended) :
    (wStep s op).written ++ (wStep s op).wb.buf = (wStep s op).appended := by
  cases op with
  | append d =>
    have hw : go_write_bio_write (some s.wb) (some d) (d.length : Int) =
        ((d.length : Int), some ⟨s.wb.buf ++ d, s.wb.release_buffers⟩) := by
      simp only [go_write_bio_write]
      rw [if_neg (by omega : ¬(d.length : Int) < 0)]
      simp [List.take_length]
    simp only [wStep, hw]
    show s.written ++ (s.wb.buf ++ d) = s.appended ++ d
    rw [← List.append_assoc, h]
  | flush k =>
    by_cases hb : s.wb.buf.length = 0
    · have hbuf : s.wb.buf = [] := List.length_eq_zero.mp hb
      simp only [wStep, WriteToConn, if_pos hb]
      simpa [hbuf] using h
    · simp only [wStep, WriteToConn, if_neg hb]
      show (s.written ++ s.wb.buf.take (min k s.wb.buf.length)) ++
          s.wb.buf.drop (min k s.wb.buf.length) = s.appended
      rw [List.append_assoc, List.take_append_drop, h]

theorem wRun_preserves (ops : List WOp) :
    ∀ s : WTrace, s.written ++ s.wb.buf = s.appended →
      (ops.foldl wStep s).written ++ (ops.foldl wStep s).wb.buf =
        (ops.foldl wStep s).appended := by
  induction ops with
  | nil => intro s h; simpa using h
  | cons op rest ih =>
    intro s h
    simpa using ih (wStep s op) (wStep_preserves s op h)

/-- C1: over every sequential history of Append and Flush calls on a Write
Adapter, where each Flush may complete a short write of any length, the
concatenation of bytes actually handed to the connection followed by the bytes
still buffered equals the concatenation of bytes appended, in order - so once
the buffer is drained the bytes written are exactly the bytes appended, with no
byte lost, duplicated, or reordered; moreover after each WriteToConn the buffer
holds exactly the unwritten suffix of the previous buffer at its front. -/
theorem c1_write_fifo_conservation :
    ∀ ops : List WOp,
      ((wRun ops).written ++ (wRun ops).wb.buf = (wRun ops).appended) ∧
      (∀ (wb : WriteBio) (k : Nat) (e : Option ConnErr),
        (WriteToConn wb k e).wb.buf = wb.buf.drop (min k wb.buf.length)) := by
  intro ops
  constructor
  · exact wRun_preserves ops ⟨⟨[], false⟩, [], []⟩ rfl
  · intro wb k e
    by_cases hb : wb.buf.length = 0
    · have hbuf : wb.buf = [] := List.length_eq_zero.mp hb
      simp [WriteToConn, hb, hbuf]
    · simp [WriteToConn, hb]

theorem rStep_preserves (s : RTrace) (op : ROp)
    (h : s.drained ++ s.rb.buf = s.delivered) :
    (rStep s op).drained ++ (rStep s op).rb.buf = (rStep s op).delivered := by
  cases op with
  | deliver c e =>
    simp only [rStep, readFromConnOnceStep_buf]
    rw [← List.append_assoc, h]
  | drain dn sz =>
    obtain ⟨rb2, hptr, hdec, _⟩ := read_copied_decomp s.rb dn sz false
    simp only [rStep, hptr]
    show (s.drained ++ (go_read_bio_read (some s.rb) dn sz false).copied) ++ rb2.buf =
        s.delivered
    rw [List.append_assoc, hdec, h]

theorem rRun_preserves (ops : List ROp) :
    ∀ s : RTrace, s.drained ++ s.rb.buf = s.delivered →
      (ops.foldl rStep s).drained ++ (ops.foldl rStep s).rb.buf =
        (ops.foldl rStep s).delivered := by
  induction ops with
  | nil => intro s h; simpa using h
  | cons op rest ih =>
    intro s h
    simpa using ih (rStep s op) (rStep_preserves s op h)

/-- C3: over every sequential history of ReadFromConnOnce deliveries (arbitrary
chunk sizes) and foreign read requests (arbitrary destination capacities) on a
Read Adapter, the concatenation of bytes drained followed by the bytes still
buffered equals the concatenation of bytes delivered by the connection, in
order - so once the buffer is drained the bytes handed out are exactly the
bytes delivered. -/
theorem c3_read_fifo_conservation :
    ∀ ops : List ROp,
      (rRun ops).drained ++ (rRun ops).rb.buf = (rRun ops).delivered := by
  intro ops
  exact rRun_preserves ops ⟨⟨[], 0, false, false⟩, [], []⟩ rfl

/-- C2: a foreign read request with a valid destination of positive capacity is
a three-way tagged result: on a non-empty buffer it copies
min(size, buffered) > 0 bytes from the front and removes exactly the copied
bytes; on an empty buffer with eof set it returns 0 with the retry flag clear
and the state unchanged (hence repeatably on every subsequent call); on an
empty buffer with eof unset it returns a negative code with the retry flag set,
never the clean-EOF result 0. -/
theorem c2_read_request_trichotomy :
    ∀ (rb : ReadBio) (size : Int) (ri : Bool), 0 < size →
      ((rb.buf ≠ [] →
        (go_read_bio_read (some rb) false size ri).rc =
          ((min size.toNat rb.buf.length : Nat) : Int) ∧
        0 < (go_read_bio_read (some rb) false size ri).rc ∧
        (go_read_bio_read (some rb) false size ri).copied =
          rb.buf.take (min size.toNat rb.buf.length) ∧
        (go_read_bio_read (some rb) false size ri).ptr.map (fun x => x.buf) =
          some (rb.buf.drop (min size.toNat rb.buf.length)) ∧
        (go_read_bio_read (some rb) false size ri).copied ++
          rb.buf.drop (min size.toNat rb.buf.length) = rb.buf) ∧
      (rb.buf = [] → rb.eof = true →
        (go_read_bio_read (some rb) false size ri).rc = 0 ∧
        (go_read_bio_read (some rb) false size ri).retry = false ∧
        (go_read_bio_read (some rb) false size ri).ptr = some rb) ∧
      (rb.buf = [] → rb.eof = false →
        (go_read_bio_read (some rb) false size ri).rc < 0 ∧
        (go_read_bio_read (some rb) false size ri).retry = true ∧
        (go_read_bio_read (some rb) false size ri).rc ≠ 0)) := by
  intro rb size ri hsz
  refine ⟨?_, ?_, ?_⟩
  · intro hne
    have hlen : ¬(rb.buf.length = 0) := by
      simpa [List.length_eq_zero] using hne
    have hcond : ¬(size = 0 ∨ false = true) := by
      simp only [Bool.false_eq_true, or_false]
      omega
    simp only [go_read_bio_read]
    rw [if_neg (by omega : ¬size < 0), if_neg hlen, if_neg hcond]
    refine ⟨rfl, ?_, rfl, rfl, List.take_append_drop _ _⟩
    have h1 : 0 < size.toNat := by omega
    have h2 : 0 < rb.buf.length := List.length_pos.mpr hne
    show (0 : Int) < ((min size.toNat rb.buf.length : Nat) : Int)
    exact_mod_cast Nat.lt_min.mpr ⟨h1, h2⟩
  · intro hb he
    have hlen : rb.buf.length = 0 := by rw [hb]; rfl
    simp only [go_read_bio_read]
    rw [if_neg (by omega : ¬size < 0), if_pos hlen, if_pos he]
    exact ⟨rfl, rfl, rfl⟩
  · intro hb he
    have hlen : rb.buf.length = 0 := by rw [hb]; rfl
    simp only [go_read_bio_read]
    rw [if_neg (by omega : ¬size < 0), if_pos hlen,
      if_neg (by simp [he] : ¬(rb.eof = true))]
    exact ⟨by show (-1 : Int) < 0; decide, rfl, by show (-1 : Int) ≠ 0; decide⟩

/-- C2 witness: the trichotomy applied at a 3-byte buffer and a 2-byte
destination, yielding the first two buffered bytes. -/
theorem c2_read_request_trichotomy_witness :
    (go_read_bio_read (some ⟨[1, 2, 3], 3, false, false⟩) false 2 false).copied =
      [1, 2] := by
  have h := ((c2_read_request_trichotomy ⟨[1, 2, 3], 3, false, false⟩ 2 false
      (by decide)).1 (by decide)).2.2.1
  exact h.trans (by decide)

end OpenSSLBio
